import Mathlib

/-!
Verification of the copilot-api protocol gateway against its design spec.

The development shallowly embeds the TypeScript sources:
  * src/lib/model-mapping.ts  — model-name remapping (parse, lookup, cache)
  * src/lib/trace.ts          — best-effort request/response tracing
  * src/routes/messages/handler.ts — the completion orchestrator and the
    streaming SSE driver loop
JavaScript strings are embedded as `List Char`; a JS `Map` built by the
mapping parser is embedded as an association list with `Map.set`
insert-or-update semantics; fallible file I/O is embedded in `Except`.
The stream-chunk translator (src/routes/messages/stream-translation.ts)
and the request translator (non-stream-translation.ts) are not part of
the provided sources; where needed they are modelled from the spec and
marked as such in their doc comments.
-/

namespace CopilotApi

/-! ## JavaScript string primitives -/

/-- Whitespace test used by `trim`; embeds the whitespace class of
JavaScript `String.prototype.trim`. -/
def isWS (c : Char) : Bool := c.isWhitespace

/-- Embeds JavaScript `String.prototype.trim`: drop whitespace from both
ends. -/
def jsTrim (l : List Char) : List Char :=
  ((l.dropWhile isWS).reverse.dropWhile isWS).reverse

/-- `true` when the first character (if any) is not whitespace. -/
def headNotWS (l : List Char) : Bool :=
  match l.head? with
  | some c => !isWS c
  | none => true

/-- A string with no leading and no trailing whitespace. -/
def isTrimmed (l : List Char) : Bool :=
  headNotWS l && headNotWS l.reverse

/-- Embeds JavaScript `String.prototype.split(",")`: split at every comma,
keeping empty fragments (so `"".split(",") = [""]`). -/
def splitComma : List Char → List (List Char)
  | [] => [[]]
  | c :: rest =>
    if c = ',' then [] :: splitComma rest
    else
      match splitComma rest with
      | t :: ts => (c :: t) :: ts
      | [] => [[c]]

/-! ## Model mapping (src/lib/model-mapping.ts) -/

/-- A JS `Map<string, string>` value, embedded as an association list in
insertion order. -/
abbrev MapT := List (List Char × List Char)

/-- Embeds `Map.prototype.get`. -/
def mapGet : MapT → List Char → Option (List Char)
  | [], _ => none
  | (k, v) :: rest, key => if k = key then some v else mapGet rest key

/-- Embeds `Map.prototype.set`: update in place when the key exists
(keeping its position), otherwise append. -/
def mapSet : MapT → List Char → List Char → MapT
  | [], k, v => [(k, v)]
  | (k', v') :: rest, k, v =>
    if k' = k then (k, v) :: rest else (k', v') :: mapSet rest k v

/-- Embeds `Map.prototype.size` (the parser never stores a duplicate key,
so the list length is the number of keys). -/
def mapSize (m : MapT) : Nat := m.length

/-- One iteration of the `for (const pair of pairs)` loop body of
`parseModelMappings` (src/lib/model-mapping.ts lines 16-35): trim the
fragment, skip it when empty, when it has no colon, or when the trimmed
source or target is empty; otherwise split at the first colon and store
the trimmed source/target pair. -/
def processPair (m : MapT) (pair : List Char) : MapT :=
  let trimmedPair := jsTrim pair
  if trimmedPair = [] then m
  else if trimmedPair.contains ':' = false then m
  else
    let source := jsTrim (trimmedPair.takeWhile (fun c => c ≠ ':'))
    let target := jsTrim ((trimmedPair.dropWhile (fun c => c ≠ ':')).tail)
    if source = [] ∨ target = [] then m
    else mapSet m source target

/-- Embeds `parseModelMappings` (src/lib/model-mapping.ts lines 8-38).
`none` stands for JS `undefined`; the guard `!envValue || envValue.trim()
=== ""` collapses to the two cases below. -/
def parseModelMappings (envValue : Option (List Char)) : MapT :=
  match envValue with
  | none => []
  | some s =>
    if jsTrim s = [] then []
    else (splitComma s).foldl processPair []

/-- Embeds `applyModelMapping` (src/lib/model-mapping.ts lines 44-59).
The source tests the looked-up value for truthiness (`if (mappedModel)`),
so an empty-string value is treated like a missing key.  The `verbose`
parameter only controls logging and is omitted. -/
def applyModelMapping (modelName : List Char) (mappings : MapT) :
    List Char × Bool :=
  match mapGet mappings modelName with
  | some mappedModel =>
    if mappedModel ≠ [] then (mappedModel, true) else (modelName, false)
  | none => (modelName, false)

/-- The module-level cache of `getModelMappings`
(src/lib/model-mapping.ts lines 65-66): `cachedMappings` is `null`
initially, `cachedEnvValue` is `undefined` initially. -/
structure MappingCache where
  cachedMappings : Option MapT
  cachedEnvValue : Option (List Char)
  deriving DecidableEq, Repr

/-- The cache state at module load (and after `clearModelMappingsCache`). -/
def initialCache : MappingCache := ⟨none, none⟩

/-- Embeds `getModelMappings` (src/lib/model-mapping.ts lines 68-84).
`env` is the current value of `process.env.MODEL_MAPPINGS`.  The returned
`Bool` records whether the function took the re-parse branch (observable
in the source through its `consola.info` log); on the cache-hit branch it
is `false` and nothing is re-parsed. -/
def getModelMappings (env : Option (List Char)) (st : MappingCache) :
    MapT × Bool × MappingCache :=
  match st.cachedMappings with
  | some m =>
    if st.cachedEnvValue = env then (m, false, st)
    else
      let parsed := parseModelMappings env
      (parsed, true, ⟨some parsed, env⟩)
  | none =>
    let parsed := parseModelMappings env
    (parsed, true, ⟨some parsed, env⟩)

/-- Cache coherence: whatever map is cached is the parse of the cached
environment value. -/
def cacheOK (st : MappingCache) : Prop :=
  ∀ m, st.cachedMappings = some m → m = parseModelMappings st.cachedEnvValue

/-! ## Tracing (src/lib/trace.ts)

The tracer's file I/O is embedded as an explicit write function of type
`String → String → Except String Unit` (path, content → success or an
error value); the source's `try { await fs.writeFile(...) } catch` is
the `match` on that result, and the whole tracer function runs in
`Except String` so that "raises an error to the caller" is expressible
as an `.error` result. -/

/-- The slice of global `State` (src/lib/state.ts) that the tracer
reads: `traceEnabled` and the optional `traceFolder`. -/
structure TraceConfig where
  traceEnabled : Bool
  traceFolder : Option String
  deriving DecidableEq, Repr

/-- JS truthiness of `state.traceFolder`: `undefined` and the empty
string are both falsy. -/
def folderPresent : Option String → Bool
  | none => false
  | some f => f ≠ ""

/-- Embeds `path.join(folder, filename)`. -/
def pathJoin (folder filename : String) : String := folder ++ "/" ++ filename

/-- Embeds `ensureTraceFolder` (src/lib/trace.ts lines 26-35): no-op when
tracing is off or no folder is configured; otherwise `mkdir`, with any
failure caught and only logged. -/
def ensureTraceFolder (cfg : TraceConfig)
    (mkdir : String → Except String Unit) : Except String Unit :=
  if cfg.traceEnabled = false ∨ folderPresent cfg.traceFolder = false then
    Except.ok ()
  else
    match cfg.traceFolder with
    | none => Except.ok ()
    | some folder =>
      match mkdir folder with
      | Except.ok _ => Except.ok ()
      | Except.error _ => Except.ok ()

/-- Embeds `traceRequest` (src/lib/trace.ts lines 42-58): returns `null`
(`none`) when tracing is disabled or no folder is configured; writes the
request under `<timestamp>.req` and returns the timestamp, catching a
write failure and returning `null` instead.  `timestamp` stands for the
`getTimestamp()` clock read and `content` for the serialized request. -/
def traceRequest (cfg : TraceConfig)
    (fsWrite : String → String → Except String Unit)
    (timestamp : String) (content : String) :
    Except String (Option String) :=
  if cfg.traceEnabled = false ∨ folderPresent cfg.traceFolder = false then
    Except.ok none
  else
    match cfg.traceFolder with
    | none => Except.ok none
    | some folder =>
      match fsWrite (pathJoin folder (timestamp ++ ".req")) content with
      | Except.ok _ => Except.ok (some timestamp)
      | Except.error _ => Except.ok none

/-- Embeds `traceResponse` (src/lib/trace.ts lines 65-81): no-op when
tracing is disabled, no folder is configured, or the request produced no
timestamp; otherwise writes `<timestamp>.resp`, catching any failure. -/
def traceResponse (cfg : TraceConfig)
    (fsWrite : String → String → Except String Unit)
    (timestamp : Option String) (content : String) : Except String Unit :=
  if cfg.traceEnabled = false ∨ folderPresent cfg.traceFolder = false
      ∨ timestamp = none then
    Except.ok ()
  else
    match cfg.traceFolder, timestamp with
    | some folder, some ts =>
      match fsWrite (pathJoin folder (ts ++ ".resp")) content with
      | Except.ok _ => Except.ok ()
      | Except.error _ => Except.ok ()
    | _, _ => Except.ok ()

/-- Embeds `StreamTracer.addChunk` (src/lib/trace.ts lines 95-98) acting
on the accumulated chunk list: records nothing when tracing is off. -/
def streamTracerAddChunk (cfg : TraceConfig) (chunks : List String)
    (chunk : String) : List String :=
  if cfg.traceEnabled = false then chunks else chunks ++ [chunk]

/-- Embeds `StreamTracer.finish` (src/lib/trace.ts lines 100-120): no-op
when tracing is off, no folder is configured, or the tracer holds no
timestamp; otherwise writes the accumulated chunks to
`<timestamp>.resp`, catching any failure.  `content` stands for the
serialized `{streaming: true, chunks}` object. -/
def streamTracerFinish (cfg : TraceConfig)
    (fsWrite : String → String → Except String Unit)
    (timestamp : Option String) (content : String) : Except String Unit :=
  if cfg.traceEnabled = false ∨ folderPresent cfg.traceFolder = false
      ∨ timestamp = none then
    Except.ok ()
  else
    match cfg.traceFolder, timestamp with
    | some folder, some ts =>
      match fsWrite (pathJoin folder (ts ++ ".resp")) content with
      | Except.ok _ => Except.ok ()
      | Except.error _ => Except.ok ()
    | _, _ => Except.ok ()

/-! ## Streaming data model (spec §3, anthropic-types / chat-completions
types referenced by src/routes/messages/handler.ts) -/

/-- One fragment of a streamed tool call inside an OpenAI chunk delta
(spec §3, OpenAIChunk): `{index, id?, function: {name?, arguments?}}`. -/
structure ToolCallFragment where
  index : Nat
  id : Option String
  name : Option String
  args : Option String
  deriving DecidableEq, Repr

/-- `choices[0].delta` of an OpenAI chunk (spec §3, OpenAIChunk). -/
structure ChunkDelta where
  role : Option String
  content : Option String
  toolCalls : List ToolCallFragment
  deriving DecidableEq, Repr

/-- One OpenAI streaming chunk, reduced to the fields the translator
reads: `choices[0].delta` and `choices[0].finish_reason` (spec §3). -/
structure ChatCompletionChunk where
  delta : ChunkDelta
  finishReason : Option String
  deriving DecidableEq, Repr

/-- The kind of content block opened by a `content_block_start` event
(spec §3, AnthropicEvent). -/
inductive BlockStart where
  | text
  | toolUse (id : String) (name : String)
  deriving DecidableEq, Repr

/-- The payload of a `content_block_delta` event (spec §§4.3.2-4.3.3). -/
inductive BlockDelta where
  | textDelta (text : String)
  | inputJsonDelta (partialJson : String)
  deriving DecidableEq, Repr

/-- An Anthropic server-sent event (spec §3, AnthropicEvent tagged
union); block indices are JS numbers, embedded as `Int`. -/
inductive AnthropicEvent where
  | messageStart
  | contentBlockStart (index : Int) (block : BlockStart)
  | contentBlockDelta (index : Int) (delta : BlockDelta)
  | contentBlockStop (index : Int)
  | messageDelta (stopReason : String)
  | messageStop
  deriving DecidableEq, Repr

/-- Per-tool-call bookkeeping in the stream state (spec §3, StreamState
`tool_calls` mapping values). -/
structure ToolCallRecord where
  blockIndex : Int
  id : String
  name : String
  nameSent : Bool
  deriving DecidableEq, Repr

/-- The per-stream mutable state (spec §3 StreamState; field names from
the literal allocated in src/routes/messages/handler.ts lines 84-89). -/
structure AnthropicStreamState where
  messageStartSent : Bool
  contentBlockIndex : Int
  contentBlockOpen : Bool
  toolCalls : List (Nat × ToolCallRecord)
  deriving DecidableEq, Repr

/-- The stream state freshly allocated at the start of the streaming
response lifecycle (src/routes/messages/handler.ts lines 84-89). -/
def initialStreamState : AnthropicStreamState :=
  { messageStartSent := false
    contentBlockIndex := 0
    contentBlockOpen := false
    toolCalls := [] }

/-! ## Stream event translator

`translateChunkToAnthropicEvents` lives in
src/routes/messages/stream-translation.ts, which is not among the
provided sources; the definitions below are modelled from spec §4.3.
The spec describes `current_block_index` as starting at −1 and being
incremented when a block opens; the handler (which is a provided source)
initializes it to 0, so the model uses the equivalent 0-based
convention: the open block lives at `contentBlockIndex`, and closing a
block emits its `content_block_stop` and then increments the index. -/

/-- Modelled from the spec: the §4.2 `finish_reason → stop_reason`
mapping table, also used by the streaming translator (§4.3 step 4):
`stop → end_turn`, `length → max_tokens`, `tool_calls → tool_use`,
`content_filter → stop_sequence`, anything else falls back to
`end_turn`. -/
def mapStopReason (r : String) : String :=
  if r = "stop" then "end_turn"
  else if r = "length" then "max_tokens"
  else if r = "tool_calls" then "tool_use"
  else if r = "content_filter" then "stop_sequence"
  else "end_turn"

/-- Modelled from the spec: close the currently open content block if
one is open (`content_block_stop`, spec §4.3), advancing the block
index past it. -/
def closeBlockIfOpen (s : AnthropicStreamState) :
    List AnthropicEvent × AnthropicStreamState :=
  if s.contentBlockOpen then
    ([AnthropicEvent.contentBlockStop s.contentBlockIndex],
     { s with contentBlockOpen := false,
              contentBlockIndex := s.contentBlockIndex + 1 })
  else ([], s)

/-- Whether the currently open block is a text block: a block is open
and no recorded tool call owns the current block index (tool-use blocks
are exactly the recorded ones). -/
def openBlockIsText (s : AnthropicStreamState) : Bool :=
  s.contentBlockOpen &&
    s.toolCalls.all (fun tc => tc.2.blockIndex ≠ s.contentBlockIndex)

/-- Modelled from the spec: §4.3 step 1 — when `message_started` is
false, emit `message_start` and set it. -/
def stepMessageStart (s : AnthropicStreamState) :
    List AnthropicEvent × AnthropicStreamState :=
  if s.messageStartSent then ([], s)
  else ([AnthropicEvent.messageStart], { s with messageStartSent := true })

/-- Modelled from the spec: §4.3 step 2 — a non-empty `delta.content`
fragment goes out as a text `content_block_delta`, opening a fresh text
block first (closing any open non-text block) when the open block is
not a text block. -/
def stepText (c : ChatCompletionChunk) (s : AnthropicStreamState) :
    List AnthropicEvent × AnthropicStreamState :=
  match c.delta.content with
  | none => ([], s)
  | some txt =>
    if txt = "" then ([], s)
    else if openBlockIsText s then
      ([AnthropicEvent.contentBlockDelta s.contentBlockIndex
          (BlockDelta.textDelta txt)], s)
    else
      let r := closeBlockIfOpen s
      (r.1 ++
         [AnthropicEvent.contentBlockStart r.2.contentBlockIndex
            BlockStart.text,
          AnthropicEvent.contentBlockDelta r.2.contentBlockIndex
            (BlockDelta.textDelta txt)],
       { r.2 with contentBlockOpen := true })

/-- Assoc lookup in the stream state's tool-call mapping (backend slot
index → record). -/
def lookupTool : List (Nat × ToolCallRecord) → Nat → Option ToolCallRecord
  | [], _ => none
  | (i, r) :: rest, j => if i = j then some r else lookupTool rest j

/-- Modelled from the spec: §4.3 step 3 for one `delta.tool_calls`
entry — an unseen backend slot closes any open block, records the new
tool call, and opens its `tool_use` block; an `arguments` fragment goes
out verbatim as an `input_json_delta`. -/
def stepToolFrag (f : ToolCallFragment) (s : AnthropicStreamState) :
    List AnthropicEvent × AnthropicStreamState :=
  match lookupTool s.toolCalls f.index with
  | some record =>
    match f.args with
    | some a =>
      ([AnthropicEvent.contentBlockDelta record.blockIndex
          (BlockDelta.inputJsonDelta a)], s)
    | none => ([], s)
  | none =>
    let r := closeBlockIfOpen s
    let record : ToolCallRecord :=
      { blockIndex := r.2.contentBlockIndex
        id := f.id.getD ""
        name := f.name.getD ""
        nameSent := true }
    let s₂ := { r.2 with contentBlockOpen := true,
                         toolCalls := r.2.toolCalls ++ [(f.index, record)] }
    let startEvs :=
      r.1 ++
        [AnthropicEvent.contentBlockStart r.2.contentBlockIndex
           (BlockStart.toolUse record.id record.name)]
    match f.args with
    | some a =>
      (startEvs ++
         [AnthropicEvent.contentBlockDelta r.2.contentBlockIndex
            (BlockDelta.inputJsonDelta a)], s₂)
    | none => (startEvs, s₂)

/-- Modelled from the spec: §4.3 step 3 — process the `delta.tool_calls`
entries in backend order. -/
def stepToolCalls (frags : List ToolCallFragment)
    (s : AnthropicStreamState) :
    List AnthropicEvent × AnthropicStreamState :=
  match frags with
  | [] => ([], s)
  | f :: rest =>
    let r₁ := stepToolFrag f s
    let r₂ := stepToolCalls rest r₁.2
    (r₁.1 ++ r₂.1, r₂.2)

/-- Modelled from the spec: §4.3 step 4 — a present `finish_reason`
closes the open block, then emits `message_delta` with the mapped stop
reason followed by `message_stop`. -/
def stepFinish (c : ChatCompletionChunk) (s : AnthropicStreamState) :
    List AnthropicEvent × AnthropicStreamState :=
  match c.finishReason with
  | none => ([], s)
  | some fr =>
    let r := closeBlockIfOpen s
    (r.1 ++
       [AnthropicEvent.messageDelta (mapStopReason fr),
        AnthropicEvent.messageStop],
     r.2)

/-- Modelled from the spec: `translateChunkToAnthropicEvents`
(src/routes/messages/stream-translation.ts, not among the provided
sources), the §4.3 per-chunk state machine: steps 1-4 in order, the
emitted events concatenated in step order. -/
def translateChunkToAnthropicEvents (c : ChatCompletionChunk)
    (s : AnthropicStreamState) :
    List AnthropicEvent × AnthropicStreamState :=
  let r₁ := stepMessageStart s
  let r₂ := stepText c r₁.2
  let r₃ := stepToolCalls c.delta.toolCalls r₂.2
  let r₄ := stepFinish c r₃.2
  (r₁.1 ++ r₂.1 ++ r₃.1 ++ r₄.1, r₄.2)

/-! ## SSE serialization (handler.ts lines 109-112) -/

/-- JSON string escaping for the characters the model's payload strings
can carry (backslash and double quote). -/
def jsonEscape (s : String) : String :=
  String.mk (s.data.flatMap fun c =>
    if c = '"' ∨ c = '\\' then ['\\', c] else [c])

/-- The `type` tag of each Anthropic event, used as the SSE `event:`
field (`event: event.type` in handler.ts line 110). -/
def eventType : AnthropicEvent → String
  | AnthropicEvent.messageStart => "message_start"
  | AnthropicEvent.contentBlockStart _ _ => "content_block_start"
  | AnthropicEvent.contentBlockDelta _ _ => "content_block_delta"
  | AnthropicEvent.contentBlockStop _ => "content_block_stop"
  | AnthropicEvent.messageDelta _ => "message_delta"
  | AnthropicEvent.messageStop => "message_stop"

/-- JSON serialization of a `content_block_start` payload. -/
def serializeBlockStart : BlockStart → String
  | BlockStart.text => "\x7b\"type\":\"text\",\"text\":\"\"\x7d"
  | BlockStart.toolUse id name =>
    "\x7b\"type\":\"tool_use\",\"id\":\"" ++ jsonEscape id ++
      "\",\"name\":\"" ++ jsonEscape name ++ "\",\"input\":\x7b\x7d\x7d"

/-- JSON serialization of a `content_block_delta` payload. -/
def serializeBlockDelta : BlockDelta → String
  | BlockDelta.textDelta t =>
    "\x7b\"type\":\"text_delta\",\"text\":\"" ++ jsonEscape t ++ "\"\x7d"
  | BlockDelta.inputJsonDelta j =>
    "\x7b\"type\":\"input_json_delta\",\"partial_json\":\"" ++
      jsonEscape j ++ "\"\x7d"

/-- Embeds `JSON.stringify(event)` (handler.ts line 111) over the
modelled event type: the canonical JSON rendering of each event. -/
def serializeEvent : AnthropicEvent → String
  | AnthropicEvent.messageStart => "\x7b\"type\":\"message_start\"\x7d"
  | AnthropicEvent.contentBlockStart i b =>
    "\x7b\"type\":\"content_block_start\",\"index\":" ++ toString i ++
      ",\"content_block\":" ++ serializeBlockStart b ++ "\x7d"
  | AnthropicEvent.contentBlockDelta i d =>
    "\x7b\"type\":\"content_block_delta\",\"index\":" ++ toString i ++
      ",\"delta\":" ++ serializeBlockDelta d ++ "\x7d"
  | AnthropicEvent.contentBlockStop i =>
    "\x7b\"type\":\"content_block_stop\",\"index\":" ++ toString i ++ "\x7d"
  | AnthropicEvent.messageDelta r =>
    "\x7b\"type\":\"message_delta\",\"delta\":\x7b\"stop_reason\":\"" ++
      jsonEscape r ++ "\"\x7d\x7d"
  | AnthropicEvent.messageStop => "\x7b\"type\":\"message_stop\"\x7d"

/-- One SSE frame as written by `stream.writeSSE` (handler.ts lines
109-112): the `event:` field and the `data:` field. -/
structure SSEFrame where
  event : String
  data : String
  deriving DecidableEq, Repr

/-- The single SSE frame an Anthropic event becomes (handler.ts lines
109-112): `event` is the event's type tag, `data` its JSON
serialization. -/
def eventFrame (e : AnthropicEvent) : SSEFrame :=
  { event := eventType e, data := serializeEvent e }

/-! ## The streaming driver loop (handler.ts lines 93-116) -/

/-- One raw SSE event from the backend as seen by the `for await` loop:
its `data` is `"[DONE]"`, empty/absent, or a JSON payload that parses to
a chunk (handler.ts lines 95-103). -/
inductive RawEvent where
  | done
  | empty
  | chunk (c : ChatCompletionChunk)
  deriving DecidableEq, Repr

/-- An observable action of the streaming driver, in the order it
performs them: record a chunk/event pair in the stream tracer, write an
SSE frame, or flush the tracer. -/
inductive OutAction where
  | traceChunk (chunk : ChatCompletionChunk) (event : AnthropicEvent)
  | sse (frame : SSEFrame)
  | traceFinish
  deriving DecidableEq, Repr

/-- Embeds the streaming driver loop of `handleCompletion` (handler.ts
lines 93-116) as the sequence of observable actions it performs: stop at
the `"[DONE]"` sentinel, skip raw events with empty data, otherwise
translate the chunk and, per translated event in order, record it in the
stream tracer and write its SSE frame; after the loop, flush the tracer
once. -/
def handleStreaming (evs : List RawEvent) (s : AnthropicStreamState) :
    List OutAction :=
  match evs with
  | [] => [OutAction.traceFinish]
  | RawEvent.done :: _ => [OutAction.traceFinish]
  | RawEvent.empty :: rest => handleStreaming rest s
  | RawEvent.chunk c :: rest =>
    let r := translateChunkToAnthropicEvents c s
    (r.1.flatMap fun e =>
        [OutAction.traceChunk c e, OutAction.sse (eventFrame e)]) ++
      handleStreaming rest r.2

/-- The chunks the driver loop actually translates: everything before
the `"[DONE]"` sentinel, with empty-data raw events skipped. -/
def processedChunks : List RawEvent → List ChatCompletionChunk
  | [] => []
  | RawEvent.done :: _ => []
  | RawEvent.empty :: rest => processedChunks rest
  | RawEvent.chunk c :: rest => c :: processedChunks rest

/-- Run the translator over a chunk sequence in order, threading the
stream state: the concatenated event output and the final state. -/
def translateAllS (cs : List ChatCompletionChunk)
    (s : AnthropicStreamState) :
    List AnthropicEvent × AnthropicStreamState :=
  match cs with
  | [] => ([], s)
  | c :: rest =>
    let r₁ := translateChunkToAnthropicEvents c s
    let r₂ := translateAllS rest r₁.2
    (r₁.1 ++ r₂.1, r₂.2)

/-- The SSE frames among a transcript of driver actions, in order. -/
def sseFrames : List OutAction → List SSEFrame
  | [] => []
  | OutAction.sse f :: rest => f :: sseFrames rest
  | _ :: rest => sseFrames rest

/-- `true` exactly on `message_start`. -/
def isMessageStart : AnthropicEvent → Bool
  | AnthropicEvent.messageStart => true
  | _ => false

/-- `true` exactly on `message_stop`. -/
def isMessageStop : AnthropicEvent → Bool
  | AnthropicEvent.messageStop => true
  | _ => false

/-- `true` exactly on the tracer-flush action. -/
def isTraceFinish : OutAction → Bool
  | OutAction.traceFinish => true
  | _ => false

/-! ## Completion orchestrator (handler.ts lines 27-58) -/

/-- An inbound Anthropic request, reduced to the `model` field the
orchestrator inspects plus an opaque remainder standing for all other
fields (`messages`, `max_tokens`, ...), which the spread
`{ ...anthropicPayload, model }` copies unchanged. -/
structure AnthropicMessagesPayload where
  model : List Char
  rest : String
  deriving DecidableEq, Repr

/-- The OpenAI-shaped request handed to the backend, reduced to the
`model` field plus the opaque remainder. -/
structure OpenAIPayload where
  model : List Char
  rest : String
  deriving DecidableEq, Repr

/-- Modelled from the spec: `translateToOpenAI`
(src/routes/messages/non-stream-translation.ts, not among the provided
sources).  Spec §3 gives `model` on both request shapes and §8 requires
the backend request to carry the (mapped) model name, so the translation
carries the payload's model through; everything else is the opaque
remainder. -/
def translateToOpenAI (p : AnthropicMessagesPayload) : OpenAIPayload :=
  { model := p.model, rest := p.rest }

/-- Embeds the model-mapping step of `handleCompletion` (handler.ts
lines 33-40): when some mappings are configured, look the model up and,
only when a mapping applied, replace the payload's model. -/
def handlerMappedPayload (p : AnthropicMessagesPayload) (mappings : MapT) :
    AnthropicMessagesPayload :=
  if mapSize mappings > 0 then
    let r := applyModelMapping p.model mappings
    if r.2 then { p with model := r.1 } else p
  else p

/-- An observable action of the orchestrator up to the backend call, in
the order `handleCompletion` performs them (handler.ts lines 27-58). -/
inductive OrchAction where
  | rateLimitCheck
  | mapLookup (requested : List Char) (effective : List Char)
  | traceReq (payload : AnthropicMessagesPayload)
  | approvalWait
  | backendCall (req : OpenAIPayload)
  deriving DecidableEq, Repr

/-- Embeds the pre-backend sequence of `handleCompletion` (handler.ts
lines 27-58) as its action transcript: rate-limit check, model-mapping
lookup via `getModelMappings`, request trace of the (already mapped)
payload, the approval gate when `state.manualApprove` is set, then the
backend call carrying the translation of the mapped payload. -/
def orchestrate (p : AnthropicMessagesPayload)
    (env : Option (List Char)) (cache : MappingCache)
    (manualApprove : Bool) : List OrchAction :=
  let mappings := (getModelMappings env cache).1
  let mapped := handlerMappedPayload p mappings
  [OrchAction.rateLimitCheck,
   OrchAction.mapLookup p.model mapped.model,
   OrchAction.traceReq mapped] ++
    (if manualApprove then [OrchAction.approvalWait] else []) ++
    [OrchAction.backendCall (translateToOpenAI mapped)]

/-! ## Streaming vs non-streaming branch (handler.ts lines 60, 120-122) -/

/-- A backend result as the branch test sees it: the names of its own
properties (plus nothing else — `Object.hasOwn` only consults own
properties). -/
structure BackendResult where
  ownProps : List String
  deriving DecidableEq, Repr

/-- Embeds `isNonStreaming` (handler.ts lines 120-122):
`Object.hasOwn(response, "choices")`. -/
def isNonStreaming (response : BackendResult) : Bool :=
  response.ownProps.contains "choices"

/-- The two response paths of `handleCompletion`. -/
inductive ResponsePath where
  | nonStreaming
  | streaming
  deriving DecidableEq, Repr

/-- Embeds the branch at handler.ts line 60: a result that passes
`isNonStreaming` is translated once and returned as a single JSON body;
any other result is driven through the streaming chunk loop. -/
def handlerRoute (response : BackendResult) : ResponsePath :=
  if isNonStreaming response then ResponsePath.nonStreaming
  else ResponsePath.streaming

/-- `true` exactly on a `mapLookup` action. -/
def isMapLookupA : OrchAction → Bool
  | OrchAction.mapLookup _ _ => true
  | _ => false

/-- `true` exactly on a `traceReq` action. -/
def isTraceReqA : OrchAction → Bool
  | OrchAction.traceReq _ => true
  | _ => false

/-- `true` exactly on the `approvalWait` action. -/
def isApprovalA : OrchAction → Bool
  | OrchAction.approvalWait => true
  | _ => false

/-- `true` exactly on a `backendCall` action. -/
def isBackendA : OrchAction → Bool
  | OrchAction.backendCall _ => true
  | _ => false

/-- A well-formed mapping entry: key and value are non-empty and carry
no leading or trailing whitespace. -/
def entryOK (kv : List Char × List Char) : Prop :=
  kv.1 ≠ [] ∧ isTrimmed kv.1 = true ∧ kv.2 ≠ [] ∧ isTrimmed kv.2 = true

/-! # Theorems -/

/-- The front of a `dropWhile isWS` result is never whitespace. -/
theorem headNotWS_dropWhile (l : List Char) :
    headNotWS (l.dropWhile isWS) = true := by
  induction l with
  | nil => rfl
  | cons c r ih =>
    by_cases h : isWS c
    · simpa [List.dropWhile_cons, h] using ih
    · simp [List.dropWhile_cons, h, headNotWS]

/-- `dropWhile` returns either the empty list or a suffix with the same
last element. -/
theorem getLast?_dropWhile {α : Type} (p : α → Bool) (l : List α) :
    l.dropWhile p = [] ∨ (l.dropWhile p).getLast? = l.getLast? := by
  induction l with
  | nil => left; rfl
  | cons c r ih =>
    by_cases h : p c
    · cases r with
      | nil => left; simp [List.dropWhile_cons, h, List.dropWhile]
      | cons d rs =>
        rw [List.dropWhile_cons]
        simp only [h, if_true]
        rcases ih with ih | ih
        · left; exact ih
        · right
          rw [ih, List.getLast?_cons_cons]
    · right; simp [List.dropWhile_cons, h]

/-- The output of the embedded JS `trim` has no leading or trailing
whitespace. -/
theorem isTrimmed_jsTrim (l : List Char) : isTrimmed (jsTrim l) = true := by
  unfold isTrimmed jsTrim
  rw [List.reverse_reverse, Bool.and_eq_true]
  constructor
  · rcases getLast?_dropWhile isWS (l.dropWhile isWS).reverse with hB | hB
    · rw [hB]
      rfl
    · have h2 := headNotWS_dropWhile l
      unfold headNotWS at h2 ⊢
      rw [List.head?_reverse, hB, List.getLast?_reverse]
      exact h2
  · exact headNotWS_dropWhile _

/-- `mapSet` preserves entry well-formedness when the inserted entry is
well-formed. -/
theorem mapSet_entryOK (m : MapT) (k v : List Char)
    (hm : ∀ kv ∈ m, entryOK kv) (hkv : entryOK (k, v)) :
    ∀ kv ∈ mapSet m k v, entryOK kv := by
  induction m with
  | nil =>
    intro kv hmem
    simp [mapSet] at hmem
    subst hmem
    exact hkv
  | cons e rest ih =>
    obtain ⟨k', v'⟩ := e
    intro kv hmem
    rw [mapSet] at hmem
    split at hmem
    · rcases List.mem_cons.mp hmem with h | h
      · subst h; exact hkv
      · exact hm _ (List.mem_cons_of_mem _ h)
    · rcases List.mem_cons.mp hmem with h | h
      · subst h; exact hm _ (List.mem_cons_self _ _)
      · exact ih (fun kv hkv' => hm _ (List.mem_cons_of_mem _ hkv')) _ h

/-- One parser loop iteration preserves entry well-formedness: it either
keeps the map unchanged or inserts a trimmed, non-empty pair. -/
theorem processPair_entryOK (m : MapT) (pair : List Char)
    (hm : ∀ kv ∈ m, entryOK kv) :
    ∀ kv ∈ processPair m pair, entryOK kv := by
  intro kv hmem
  rw [processPair] at hmem
  simp only at hmem
  split at hmem
  · exact hm kv hmem
  · split at hmem
    · exact hm kv hmem
    · split at hmem
      · exact hm kv hmem
      · rename_i hguard
        push_neg at hguard
        exact mapSet_entryOK m _ _ hm
          ⟨hguard.1, isTrimmed_jsTrim _, hguard.2, isTrimmed_jsTrim _⟩ kv hmem

/-- The parser fold preserves entry well-formedness. -/
theorem foldl_processPair_entryOK (pairs : List (List Char)) :
    ∀ (m : MapT), (∀ kv ∈ m, entryOK kv) →
      ∀ kv ∈ pairs.foldl processPair m, entryOK kv := by
  induction pairs with
  | nil => intro m hm; exact hm
  | cons p ps ih =>
    intro m hm
    exact ih (processPair m p) (processPair_entryOK m p hm)

/-- **C8**: every key and value produced by `parseModelMappings` is a
non-empty string with no leading or trailing whitespace; an entry with
no colon, an empty source, or an empty target contributes no map entry,
and each kept entry is split at its first colon so the target may itself
contain colons. -/
theorem c8_parse_model_mappings (env : Option (List Char))
    (kv : List Char × List Char) :
    (kv ∈ parseModelMappings env →
      kv.1 ≠ [] ∧ isTrimmed kv.1 = true ∧
      kv.2 ≠ [] ∧ isTrimmed kv.2 = true) ∧
    parseModelMappings
        (some "valid-source:valid-target,invalid-mapping".data) =
      [("valid-source".data, "valid-target".data)] ∧
    parseModelMappings (some ":target,source:".data) = [] ∧
    parseModelMappings (some "source:target:with:colons".data) =
      [("source".data, "target:with:colons".data)] := by
  refine ⟨?_, by decide, by decide, by decide⟩
  intro hmem
  cases env with
  | none => simp [parseModelMappings] at hmem
  | some s =>
    rw [parseModelMappings] at hmem
    split at hmem
    · simp at hmem
    · exact foldl_processPair_entryOK (splitComma s) []
        (by intro kv h; simp at h) kv hmem

/-- **C8** (witness): a concrete entry produced with surrounding
whitespace comes out trimmed and non-empty. -/
theorem c8_parse_model_mappings_witness :
    "a".data ≠ [] ∧ isTrimmed "a".data = true ∧
    "b".data ≠ [] ∧ isTrimmed "b".data = true :=
  (c8_parse_model_mappings (some " a : b ".data)
    ("a".data, "b".data)).1 (by decide)

/-- **C2** (counterexample): the stream state freshly allocated by the
handler does not satisfy the claim as stated — its `contentBlockIndex`
is 0, not −1. -/
theorem c2_counterexample :
    ¬ (initialStreamState.messageStartSent = false ∧
       initialStreamState.contentBlockIndex = -1 ∧
       initialStreamState.contentBlockOpen = false ∧
       initialStreamState.toolCalls = []) := by
  decide

/-- **C2** (amended): at the start of every streaming response lifecycle
the freshly allocated stream state has `messageStartSent = false`,
`contentBlockIndex = 0`, `contentBlockOpen = false`, and an empty
tool-call mapping. -/
theorem c2_initial_stream_state :
    initialStreamState.messageStartSent = false ∧
    initialStreamState.contentBlockIndex = 0 ∧
    initialStreamState.contentBlockOpen = false ∧
    initialStreamState.toolCalls = [] := by
  decide

/-- **C10**: a backend result is routed to the non-streaming path iff it
has an own property named `choices`, and to the streaming chunk loop iff
it does not. -/
theorem c10_route_iff_choices (r : BackendResult) :
    (handlerRoute r = ResponsePath.nonStreaming ↔ "choices" ∈ r.ownProps) ∧
    (handlerRoute r = ResponsePath.streaming ↔ "choices" ∉ r.ownProps) := by
  by_cases h : "choices" ∈ r.ownProps <;>
    simp [handlerRoute, isNonStreaming, h]

/-- **C10** (witness): a result whose own properties include `choices`
is routed to the non-streaming path. -/
theorem c10_route_witness :
    handlerRoute ⟨["id", "choices", "usage"]⟩ = ResponsePath.nonStreaming :=
  (c10_route_iff_choices ⟨["id", "choices", "usage"]⟩).1.mpr (by decide)

/-- **C1** (counterexample): the claim fails when the mapping table
binds the requested model to the empty string — `"a"` is then a key of
the table with value `""`, yet `applyModelMapping` returns the original
name unmapped (the source tests the looked-up value for JS truthiness),
not `("", mapped=true)` as the claim requires. -/
theorem c1_counterexample :
    mapGet [("a".data, "".data)] "a".data = some "".data ∧
    applyModelMapping "a".data [("a".data, "".data)] ≠ ("".data, true) := by
  decide

/-- **C1** (amended): `applyModelMapping` is pure and returns
`(M[m], mapped=true)` when `m` is a key of `M` with a non-empty value,
and `(m, mapped=false)` otherwise — including when `m`'s value in `M` is
the empty string; with the configured mapping
`claude-sonnet-4 → claude-opus-4`, a request whose model is
`claude-sonnet-4` reaches the backend call with model
`claude-opus-4`. -/
theorem c1_apply_model_mapping (m : List Char) (M : MapT) :
    (∀ v, mapGet M m = some v → v ≠ [] →
      applyModelMapping m M = (v, true)) ∧
    (mapGet M m = none → applyModelMapping m M = (m, false)) ∧
    (mapGet M m = some [] → applyModelMapping m M = (m, false)) ∧
    (∀ body approve,
      (orchestrate ⟨"claude-sonnet-4".data, body⟩
          (some "claude-sonnet-4:claude-opus-4".data) initialCache
          approve).getLast? =
        some (OrchAction.backendCall ⟨"claude-opus-4".data, body⟩)) := by
  refine ⟨?_, ?_, ?_, ?_⟩
  · intro v hv hne
    simp [applyModelMapping, hv, hne]
  · intro hv
    simp [applyModelMapping, hv]
  · intro hv
    simp [applyModelMapping, hv]
  · intro body approve
    cases approve <;> rfl

/-- **C1** (witness): the mapped branch at a concrete table, and the
unmapped branch at a key bound to the empty string. -/
theorem c1_apply_model_mapping_witness :
    applyModelMapping "x".data [("x".data, "y".data)] = ("y".data, true) ∧
    applyModelMapping "z".data [("z".data, "".data)] = ("z".data, false) :=
  ⟨(c1_apply_model_mapping "x".data [("x".data, "y".data)]).1 "y".data
      (by decide) (by decide),
   (c1_apply_model_mapping "z".data [("z".data, "".data)]).2.2.1 (by decide)⟩

/-- **C5**: per inbound request the orchestrator's transcript puts the
model-mapping lookup before the request trace, the trace before the
approval gate (when manual approval is enabled), and the approval gate
before the backend call; the backend call is the last action, occurs
exactly once, and carries the translation of the payload after model
mapping was applied. -/
theorem c5_orchestrator_order (p : AnthropicMessagesPayload)
    (env : Option (List Char)) (cache : MappingCache) (approve : Bool) :
    (orchestrate p env cache approve).findIdx isMapLookupA <
      (orchestrate p env cache approve).findIdx isTraceReqA ∧
    (approve = true →
      (orchestrate p env cache approve).findIdx isTraceReqA <
        (orchestrate p env cache approve).findIdx isApprovalA ∧
      (orchestrate p env cache approve).findIdx isApprovalA <
        (orchestrate p env cache approve).findIdx isBackendA) ∧
    (orchestrate p env cache approve).countP isBackendA = 1 ∧
    (orchestrate p env cache approve).getLast? =
      some (OrchAction.backendCall (translateToOpenAI
        (handlerMappedPayload p (getModelMappings env cache).1))) := by
  cases approve <;>
    simp [orchestrate, List.findIdx_cons, List.countP_cons,
      isMapLookupA, isTraceReqA, isApprovalA, isBackendA,
      List.getLast?]

/-- **C5** (witness): with manual approval enabled at a concrete
request, the trace precedes the gate and the gate precedes the backend
call. -/
theorem c5_orchestrator_order_witness :
    (orchestrate ⟨"m".data, ""⟩ none initialCache true).findIdx
        isTraceReqA <
      (orchestrate ⟨"m".data, ""⟩ none initialCache true).findIdx
        isApprovalA ∧
    (orchestrate ⟨"m".data, ""⟩ none initialCache true).findIdx
        isApprovalA <
      (orchestrate ⟨"m".data, ""⟩ none initialCache true).findIdx
        isBackendA :=
  (c5_orchestrator_order ⟨"m".data, ""⟩ none initialCache true).2.1 rfl

/-- **C7**: the tracer never raises to its caller: for every
configuration and every outcome of the underlying file write (or
`mkdir`), `traceRequest`, `traceResponse`, `ensureTraceFolder` and
`StreamTracer.finish` return normally; `traceRequest` returns `null`
when tracing is disabled, when no trace folder is configured, and when
the underlying write fails. -/
theorem c7_tracer_never_throws (cfg : TraceConfig)
    (w : String → String → Except String Unit)
    (mk : String → Except String Unit)
    (ts content : String) (tsOpt : Option String) :
    (∃ v, traceRequest cfg w ts content = Except.ok v) ∧
    traceResponse cfg w tsOpt content = Except.ok () ∧
    ensureTraceFolder cfg mk = Except.ok () ∧
    streamTracerFinish cfg w tsOpt content = Except.ok () ∧
    (cfg.traceEnabled = false →
      traceRequest cfg w ts content = Except.ok none) ∧
    (folderPresent cfg.traceFolder = false →
      traceRequest cfg w ts content = Except.ok none) ∧
    ((∀ path c, ∃ e, w path c = Except.error e) →
      traceRequest cfg w ts content = Except.ok none) := by
  refine ⟨?_, ?_, ?_, ?_, ?_, ?_, ?_⟩
  · unfold traceRequest
    split
    · exact ⟨none, rfl⟩
    · split
      · exact ⟨none, rfl⟩
      · split
        · exact ⟨_, rfl⟩
        · exact ⟨none, rfl⟩
  · unfold traceResponse
    split
    · rfl
    · split
      · split <;> rfl
      · rfl
  · unfold ensureTraceFolder
    split
    · rfl
    · split
      · rfl
      · split <;> rfl
  · unfold streamTracerFinish
    split
    · rfl
    · split
      · split <;> rfl
      · rfl
  · intro h
    unfold traceRequest
    split
    · rfl
    · simp_all
  · intro h
    unfold traceRequest
    split
    · rfl
    · simp_all
  · intro h
    unfold traceRequest
    split
    · rfl
    · split
      · rfl
      · rename_i folder _
        obtain ⟨e, he⟩ := h (pathJoin folder (ts ++ ".req")) content
        split
        · simp_all
        · rfl

/-- **C7** (witness): a concrete enabled configuration whose write
always fails still yields a normal `null` return. -/
theorem c7_tracer_never_throws_witness :
    traceRequest ⟨true, some "traces"⟩
        (fun _ _ => Except.error "EACCES") "20251204" "req" =
      Except.ok none :=
  (c7_tracer_never_throws ⟨true, some "traces"⟩
      (fun _ _ => Except.error "EACCES")
      (fun _ => Except.error "EACCES") "20251204" "req" none).2.2.2.2.2.2
    (fun _ _ => ⟨"EACCES", rfl⟩)

/-- **C9**: a second `getModelMappings` call with the environment value
unchanged returns the cached map unchanged and re-parses nothing (the
re-parse flag is `false` and the cache state is untouched); a call with
a different environment value re-parses from the new value; and from any
coherent cache state — in particular from the initial one, coherence
being preserved by every call — the returned map is exactly
`parseModelMappings` of the current environment value. -/
theorem c9_get_model_mappings_cache (env env' : Option (List Char))
    (st : MappingCache) :
    (getModelMappings env (getModelMappings env st).2.2 =
      ((getModelMappings env st).1, false, (getModelMappings env st).2.2)) ∧
    (env' ≠ env →
      getModelMappings env' (getModelMappings env st).2.2 =
        (parseModelMappings env', true,
          ⟨some (parseModelMappings env'), env'⟩)) ∧
    (cacheOK st → (getModelMappings env st).1 = parseModelMappings env) ∧
    (cacheOK st → cacheOK (getModelMappings env st).2.2) ∧
    cacheOK initialCache := by
  obtain ⟨cm, ce⟩ := st
  refine ⟨?_, ?_, ?_, ?_, ?_⟩
  · cases cm with
    | none => simp [getModelMappings]
    | some m =>
      by_cases h : ce = env <;> simp [getModelMappings, h]
  · intro hne
    cases cm with
    | none =>
      simp [getModelMappings]
      exact fun hh => hne hh.symm
    | some m =>
      by_cases h : ce = env <;> simp [getModelMappings, h] <;>
        exact fun hh => hne hh.symm
  · intro hok
    cases cm with
    | none => simp [getModelMappings]
    | some m =>
      by_cases h : ce = env
      · subst h
        have hv : (getModelMappings ce ⟨some m, ce⟩).1 = m := by
          simp [getModelMappings]
        rw [hv]
        exact hok m rfl
      · simp [getModelMappings, h]
  · intro hok
    cases cm with
    | none =>
      have hs : (getModelMappings env (⟨none, ce⟩ : MappingCache)).2.2 =
          ⟨some (parseModelMappings env), env⟩ := by
        simp [getModelMappings]
      rw [hs]
      intro m hm
      injection hm with h₂
      exact h₂.symm
    | some m₀ =>
      by_cases h : ce = env
      · have hs : (getModelMappings env
            (⟨some m₀, ce⟩ : MappingCache)).2.2 = ⟨some m₀, ce⟩ := by
          simp [getModelMappings, h]
        rw [hs]
        exact hok
      · have hs : (getModelMappings env
            (⟨some m₀, ce⟩ : MappingCache)).2.2 =
            ⟨some (parseModelMappings env), env⟩ := by
          simp [getModelMappings, h]
        rw [hs]
        intro m hm
        injection hm with h₂
        exact h₂.symm
  · intro m hm
    simp [initialCache] at hm

/-- **C9** (witness): starting from the initial cache, a first call with
a concrete environment value parses it; the immediate second call with a
changed value re-parses. -/
theorem c9_get_model_mappings_cache_witness :
    getModelMappings none
        (getModelMappings (some "a:b".data) initialCache).2.2 =
      (parseModelMappings none, true,
        ⟨some (parseModelMappings none), none⟩) :=
  (c9_get_model_mappings_cache (some "a:b".data) none initialCache).2.1
    (by decide)

/-- Closing a block emits no `message_start` and no `message_stop`, and
leaves `messageStartSent` untouched. -/
theorem closeBlockIfOpen_counts (s : AnthropicStreamState) :
    ((closeBlockIfOpen s).1).countP isMessageStart = 0 ∧
    ((closeBlockIfOpen s).1).countP isMessageStop = 0 ∧
    (closeBlockIfOpen s).2.messageStartSent = s.messageStartSent := by
  unfold closeBlockIfOpen
  split <;> simp [List.countP_cons, isMessageStart, isMessageStop]

/-- Step 1 emits `message_start` exactly when it was not yet sent, never
emits `message_stop`, and leaves the flag set. -/
theorem stepMessageStart_counts (s : AnthropicStreamState) :
    ((stepMessageStart s).1).countP isMessageStart =
      (if s.messageStartSent then 0 else 1) ∧
    ((stepMessageStart s).1).countP isMessageStop = 0 ∧
    (stepMessageStart s).2.messageStartSent = true := by
  unfold stepMessageStart
  split <;>
    rename_i h <;>
    simp_all [List.countP_cons, isMessageStart, isMessageStop]

/-- The text step emits only block events and preserves the
`messageStartSent` flag. -/
theorem stepText_counts (c : ChatCompletionChunk)
    (s : AnthropicStreamState) :
    ((stepText c s).1).countP isMessageStart = 0 ∧
    ((stepText c s).1).countP isMessageStop = 0 ∧
    (stepText c s).2.messageStartSent = s.messageStartSent := by
  obtain ⟨h₁, h₂, h₃⟩ := closeBlockIfOpen_counts s
  unfold stepText
  cases c.delta.content with
  | none => simp
  | some txt =>
    by_cases he : txt = ""
    · simp [he]
    · by_cases ht : openBlockIsText s = true
      · simp [he, ht, List.countP_cons, isMessageStart, isMessageStop]
      · simp [he, ht, List.countP_append, List.countP_cons,
          isMessageStart, isMessageStop, h₁, h₂, h₃]

/-- A single tool-call fragment emits only block events and preserves
the `messageStartSent` flag. -/
theorem stepToolFrag_counts (f : ToolCallFragment)
    (s : AnthropicStreamState) :
    ((stepToolFrag f s).1).countP isMessageStart = 0 ∧
    ((stepToolFrag f s).1).countP isMessageStop = 0 ∧
    (stepToolFrag f s).2.messageStartSent = s.messageStartSent := by
  obtain ⟨h₁, h₂, h₃⟩ := closeBlockIfOpen_counts s
  unfold stepToolFrag
  cases hl : lookupTool s.toolCalls f.index with
  | some record =>
    cases f.args <;>
      simp [List.countP_cons, isMessageStart, isMessageStop]
  | none =>
    cases f.args <;>
      simp [List.countP_append, List.countP_cons,
        isMessageStart, isMessageStop, h₁, h₂, h₃]

/-- The tool-call loop emits only block events and preserves the
`messageStartSent` flag. -/
theorem stepToolCalls_counts (frags : List ToolCallFragment) :
    ∀ s : AnthropicStreamState,
    ((stepToolCalls frags s).1).countP isMessageStart = 0 ∧
    ((stepToolCalls frags s).1).countP isMessageStop = 0 ∧
    (stepToolCalls frags s).2.messageStartSent = s.messageStartSent := by
  induction frags with
  | nil => intro s; simp [stepToolCalls]
  | cons f rest ih =>
    intro s
    obtain ⟨h₁, h₂, h₃⟩ := stepToolFrag_counts f s
    obtain ⟨g₁, g₂, g₃⟩ := ih (stepToolFrag f s).2
    rw [stepToolCalls]
    simp only [List.countP_append]
    exact ⟨by rw [h₁, g₁], by rw [h₂, g₂], by rw [g₃, h₃]⟩

/-- The finish step emits `message_stop` exactly when a `finish_reason`
is present, never emits `message_start`, preserves the flag, and —
when a finish reason is present — ends with `message_stop`. -/
theorem stepFinish_counts (c : ChatCompletionChunk)
    (s : AnthropicStreamState) :
    ((stepFinish c s).1).countP isMessageStart = 0 ∧
    ((stepFinish c s).1).countP isMessageStop =
      (if c.finishReason.isSome then 1 else 0) ∧
    (stepFinish c s).2.messageStartSent = s.messageStartSent ∧
    (∀ fr, c.finishReason = some fr →
      ((stepFinish c s).1).getLast? = some AnthropicEvent.messageStop) := by
  obtain ⟨h₁, h₂, h₃⟩ := closeBlockIfOpen_counts s
  unfold stepFinish
  cases hf : c.finishReason with
  | none => simp
  | some fr =>
    refine ⟨?_, ?_, h₃, ?_⟩
    · simp [List.countP_append, List.countP_cons,
        isMessageStart, h₁]
    · simp [List.countP_append, List.countP_cons,
        isMessageStop, h₂]
    · intro fr' _
      simp [List.getLast?_append]

/-- Per chunk: `message_start` is emitted exactly when the state had not
yet sent it. -/
theorem translate_start_count (c : ChatCompletionChunk)
    (s : AnthropicStreamState) :
    ((translateChunkToAnthropicEvents c s).1).countP isMessageStart =
      if s.messageStartSent then 0 else 1 := by
  rw [translateChunkToAnthropicEvents]
  simp only [List.countP_append]
  rw [(stepMessageStart_counts s).1,
    (stepText_counts c (stepMessageStart s).2).1,
    (stepToolCalls_counts c.delta.toolCalls _).1,
    (stepFinish_counts c _).1]
  omega

/-- Per chunk: `message_stop` is emitted exactly when the chunk carries
a `finish_reason`. -/
theorem translate_stop_count (c : ChatCompletionChunk)
    (s : AnthropicStreamState) :
    ((translateChunkToAnthropicEvents c s).1).countP isMessageStop =
      if c.finishReason.isSome then 1 else 0 := by
  rw [translateChunkToAnthropicEvents]
  simp only [List.countP_append]
  rw [(stepMessageStart_counts s).2.1,
    (stepText_counts c (stepMessageStart s).2).2.1,
    (stepToolCalls_counts c.delta.toolCalls _).2.1,
    (stepFinish_counts c _).2.1]
  omega

/-- Per chunk: after translation the `messageStartSent` flag is set. -/
theorem translate_sent (c : ChatCompletionChunk)
    (s : AnthropicStreamState) :
    (translateChunkToAnthropicEvents c s).2.messageStartSent = true := by
  rw [translateChunkToAnthropicEvents]
  simp only
  rw [(stepFinish_counts c _).2.2.1,
    (stepToolCalls_counts c.delta.toolCalls _).2.2,
    (stepText_counts c _).2.2,
    (stepMessageStart_counts s).2.2]

/-- Per chunk: when `message_start` was not yet sent, it is the first
event emitted. -/
theorem translate_head (c : ChatCompletionChunk)
    (s : AnthropicStreamState) (h : s.messageStartSent = false) :
    ((translateChunkToAnthropicEvents c s).1).head? =
      some AnthropicEvent.messageStart := by
  rw [translateChunkToAnthropicEvents]
  simp [stepMessageStart, h, List.head?_append]

/-- Per chunk: when the chunk carries a `finish_reason`, the last event
emitted is `message_stop`. -/
theorem translate_getLast (c : ChatCompletionChunk)
    (s : AnthropicStreamState) (fr : String)
    (h : c.finishReason = some fr) :
    ((translateChunkToAnthropicEvents c s).1).getLast? =
      some AnthropicEvent.messageStop := by
  rw [translateChunkToAnthropicEvents]
  simp only [List.getLast?_append]
  rw [(stepFinish_counts c _).2.2.2 fr h]
  rfl

/-- Once `message_start` has been sent, no chunk sequence emits another
one. -/
theorem translateAllS_start_count_sent (cs : List ChatCompletionChunk) :
    ∀ s : AnthropicStreamState, s.messageStartSent = true →
    ((translateAllS cs s).1).countP isMessageStart = 0 := by
  induction cs with
  | nil => intro s _; simp [translateAllS]
  | cons c rest ih =>
    intro s h
    rw [translateAllS]
    simp only [List.countP_append]
    rw [translate_start_count, ih _ (translate_sent c s), h]
    simp

/-- A non-empty chunk sequence starting from an unsent state emits
`message_start` exactly once. -/
theorem translateAllS_start_count (cs : List ChatCompletionChunk)
    (s : AnthropicStreamState) (h : s.messageStartSent = false)
    (hne : cs ≠ []) :
    ((translateAllS cs s).1).countP isMessageStart = 1 := by
  cases cs with
  | nil => exact absurd rfl hne
  | cons c rest =>
    rw [translateAllS]
    simp only [List.countP_append]
    rw [translate_start_count,
      translateAllS_start_count_sent rest _ (translate_sent c s), h]
    simp

/-- The number of `message_stop` events equals the number of chunks
carrying a `finish_reason`. -/
theorem translateAllS_stop_count (cs : List ChatCompletionChunk) :
    ∀ s : AnthropicStreamState,
    ((translateAllS cs s).1).countP isMessageStop =
      cs.countP (fun c => c.finishReason.isSome) := by
  induction cs with
  | nil => intro s; simp [translateAllS]
  | cons c rest ih =>
    intro s
    rw [translateAllS]
    simp only [List.countP_append, List.countP_cons]
    rw [translate_stop_count, ih]
    by_cases h : c.finishReason.isSome <;> simp [h, Nat.add_comm]

/-- A non-empty chunk sequence starting from an unsent state emits
`message_start` first. -/
theorem translateAllS_head (cs : List ChatCompletionChunk)
    (s : AnthropicStreamState) (h : s.messageStartSent = false)
    (hne : cs ≠ []) :
    ((translateAllS cs s).1).head? = some AnthropicEvent.messageStart := by
  cases cs with
  | nil => exact absurd rfl hne
  | cons c rest =>
    rw [translateAllS]
    simp only [List.head?_append]
    rw [translate_head c s h]
    rfl

/-- Running the translator over an appended chunk sequence splits into
the two runs, the second starting from the first run's final state. -/
theorem translateAllS_append (cs ds : List ChatCompletionChunk) :
    ∀ s : AnthropicStreamState,
    translateAllS (cs ++ ds) s =
      ((translateAllS cs s).1 ++
         (translateAllS ds (translateAllS cs s).2).1,
       (translateAllS ds (translateAllS cs s).2).2) := by
  induction cs with
  | nil => intro s; simp [translateAllS]
  | cons c rest ih =>
    intro s
    rw [List.cons_append, translateAllS, translateAllS, ih]
    simp [List.append_assoc]

/-- When the last chunk carries a `finish_reason`, the final event of
the whole run is `message_stop`. -/
theorem translateAllS_getLast (ds : List ChatCompletionChunk)
    (c : ChatCompletionChunk) (s : AnthropicStreamState) (fr : String)
    (h : c.finishReason = some fr) :
    ((translateAllS (ds ++ [c]) s).1).getLast? =
      some AnthropicEvent.messageStop := by
  rw [translateAllS_append]
  simp only [List.getLast?_append]
  rw [translateAllS]
  simp only [List.getLast?_append]
  rw [translateAllS]
  simp only [List.append_nil]
  rw [translate_getLast c _ fr h]
  rfl

/-- `sseFrames` distributes over action-list concatenation. -/
theorem sseFrames_append (l₁ l₂ : List OutAction) :
    sseFrames (l₁ ++ l₂) = sseFrames l₁ ++ sseFrames l₂ := by
  induction l₁ with
  | nil => rfl
  | cons a t ih => cases a <;> simp [sseFrames, ih]

/-- The frames among one chunk's trace/write interleaving are exactly
the frames of its events, in order. -/
theorem sseFrames_flatMap (events : List AnthropicEvent)
    (c : ChatCompletionChunk) :
    sseFrames (events.flatMap fun e =>
        [OutAction.traceChunk c e, OutAction.sse (eventFrame e)]) =
      events.map eventFrame := by
  induction events with
  | nil => rfl
  | cons e t ih =>
    rw [List.flatMap_cons, sseFrames_append, ih]
    rfl

/-- The streaming driver writes exactly one SSE frame per translated
event, in translation order: its frames are the image of the translated
events under `eventFrame`. -/
theorem sseFrames_handleStreaming (evs : List RawEvent) :
    ∀ s : AnthropicStreamState,
    sseFrames (handleStreaming evs s) =
      ((translateAllS (processedChunks evs) s).1).map eventFrame := by
  induction evs with
  | nil => intro s; rfl
  | cons a rest ih =>
    intro s
    cases a with
    | done => rfl
    | empty => exact ih s
    | chunk c =>
      rw [handleStreaming]
      simp only [processedChunks, translateAllS]
      rw [sseFrames_append, sseFrames_flatMap, ih, List.map_append]

/-- The driver transcript is never empty. -/
theorem handleStreaming_ne_nil (evs : List RawEvent) :
    ∀ s : AnthropicStreamState, handleStreaming evs s ≠ [] := by
  induction evs with
  | nil => intro s; simp [handleStreaming]
  | cons a rest ih =>
    intro s
    cases a with
    | done => simp [handleStreaming]
    | empty => exact ih s
    | chunk c =>
      rw [handleStreaming]
      simp only [ne_eq, List.append_eq_nil, not_and]
      intro _
      exact ih _

/-- One chunk's trace/write interleaving contains no tracer flush. -/
theorem flatMap_no_traceFinish (events : List AnthropicEvent)
    (c : ChatCompletionChunk) :
    (events.flatMap fun e =>
        [OutAction.traceChunk c e, OutAction.sse (eventFrame e)]).countP
      isTraceFinish = 0 := by
  induction events with
  | nil => rfl
  | cons e t ih => simp [List.countP_cons, isTraceFinish, ih]

/-- The driver flushes the stream tracer exactly once. -/
theorem handleStreaming_finish_count (evs : List RawEvent) :
    ∀ s : AnthropicStreamState,
    (handleStreaming evs s).countP isTraceFinish = 1 := by
  induction evs with
  | nil => intro s; simp [handleStreaming, List.countP_cons, isTraceFinish]
  | cons a rest ih =>
    intro s
    cases a with
    | done => simp [handleStreaming, List.countP_cons, isTraceFinish]
    | empty => exact ih s
    | chunk c =>
      rw [handleStreaming]
      simp only [List.countP_append]
      rw [flatMap_no_traceFinish, ih]

/-- The tracer flush is the driver's last action. -/
theorem handleStreaming_getLast (evs : List RawEvent) :
    ∀ s : AnthropicStreamState,
    (handleStreaming evs s).getLast? = some OutAction.traceFinish := by
  induction evs with
  | nil => intro s; rfl
  | cons a rest ih =>
    intro s
    cases a with
    | done => rfl
    | empty => exact ih s
    | chunk c =>
      rw [handleStreaming]
      simp only [List.getLast?_append]
      rw [ih]
      rfl

/-- Everything after the `"[DONE]"` sentinel is ignored by the driver. -/
theorem handleStreaming_done_stops (pre : List RawEvent) :
    ∀ (t₁ t₂ : List RawEvent) (s : AnthropicStreamState),
    handleStreaming (pre ++ RawEvent.done :: t₁) s =
      handleStreaming (pre ++ RawEvent.done :: t₂) s := by
  induction pre with
  | nil => intro t₁ t₂ s; rfl
  | cons a rest ih =>
    intro t₁ t₂ s
    cases a with
    | done => rfl
    | empty =>
      rw [List.cons_append, List.cons_append, handleStreaming,
        handleStreaming]
      exact ih t₁ t₂ s
    | chunk c =>
      rw [List.cons_append, List.cons_append, handleStreaming,
        handleStreaming]
      rw [ih t₁ t₂]

/-- The SSE frame tag identifies `message_start` events. -/
theorem frameTag_start (e : AnthropicEvent) :
    ((eventFrame e).event == "message_start") = isMessageStart e := by
  cases e <;> rfl

/-- The SSE frame tag identifies `message_stop` events. -/
theorem frameTag_stop (e : AnthropicEvent) :
    ((eventFrame e).event == "message_stop") = isMessageStop e := by
  cases e <;> rfl

/-- **C4**: every Anthropic event produced by the chunk translator is
written as exactly one SSE frame — `event` is the event's type tag,
`data` its JSON serialization — and the frame sequence is exactly the
image of the produced event sequence, in order, with nothing dropped,
duplicated, or reordered. -/
theorem c4_sse_frame_fidelity (evs : List RawEvent)
    (s : AnthropicStreamState) :
    sseFrames (handleStreaming evs s) =
      ((translateAllS (processedChunks evs) s).1).map eventFrame ∧
    ∀ e, eventFrame e =
      { event := eventType e, data := serializeEvent e } :=
  ⟨sseFrames_handleStreaming evs s, fun _ => rfl⟩

/-- **C6**: the driver hands off all events derived from a chunk before
touching the rest of the stream; nothing after the `"[DONE]"` sentinel
is translated or written; and the stream tracer is flushed exactly once,
as the last action. -/
theorem c6_stream_driver_sequencing :
    (∀ (c : ChatCompletionChunk) (rest : List RawEvent)
        (s : AnthropicStreamState),
      handleStreaming (RawEvent.chunk c :: rest) s =
        ((translateChunkToAnthropicEvents c s).1.flatMap fun e =>
            [OutAction.traceChunk c e, OutAction.sse (eventFrame e)]) ++
          handleStreaming rest (translateChunkToAnthropicEvents c s).2) ∧
    (∀ (pre t₁ t₂ : List RawEvent) (s : AnthropicStreamState),
      handleStreaming (pre ++ RawEvent.done :: t₁) s =
        handleStreaming (pre ++ RawEvent.done :: t₂) s) ∧
    (∀ (evs : List RawEvent) (s : AnthropicStreamState),
      (handleStreaming evs s).countP isTraceFinish = 1 ∧
      (handleStreaming evs s).getLast? = some OutAction.traceFinish) :=
  ⟨fun _ _ _ => rfl,
   fun pre t₁ t₂ s => handleStreaming_done_stops pre t₁ t₂ s,
   fun evs s =>
     ⟨handleStreaming_finish_count evs s, handleStreaming_getLast evs s⟩⟩

/-- **C3** (counterexample): as stated — over *every* finite chunk
sequence — the claim fails: the empty sequence writes no events at all
(so no `message_start` exists); a sequence with no `finish_reason`
writes no `message_stop`; and a sequence with a `finish_reason` chunk
followed by a further content chunk writes its one `message_stop` in a
non-final position. -/
theorem c3_counterexample :
    sseFrames (handleStreaming ([] : List RawEvent) initialStreamState) =
      [] ∧
    (sseFrames (handleStreaming
        [RawEvent.chunk ⟨⟨none, some "hi", []⟩, none⟩]
        initialStreamState)).countP
      (fun fr => fr.event == "message_stop") = 0 ∧
    (sseFrames (handleStreaming
        [RawEvent.chunk ⟨⟨none, none, []⟩, some "stop"⟩,
         RawEvent.chunk ⟨⟨none, some "hi", []⟩, none⟩]
        initialStreamState)).countP
      (fun fr => fr.event == "message_stop") = 1 ∧
    Option.map (fun fr : SSEFrame => fr.event)
        ((sseFrames (handleStreaming
          [RawEvent.chunk ⟨⟨none, none, []⟩, some "stop"⟩,
           RawEvent.chunk ⟨⟨none, some "hi", []⟩, none⟩]
          initialStreamState)).getLast?) =
      some "content_block_delta" := by
  decide

/-- **C3** (amended): for every finite chunk sequence fed to the
streaming path in which at least one chunk is translated and exactly the
last translated chunk carries a `finish_reason`, the written event
sequence contains exactly one `message_start`, which is the first frame
written, and exactly one `message_stop`, which is the last frame
written. -/
theorem c3_stream_start_stop (evs : List RawEvent)
    (hne : processedChunks evs ≠ [])
    (hmid : ∀ c ∈ (processedChunks evs).dropLast, c.finishReason = none)
    (hlast : ∀ c, (processedChunks evs).getLast? = some c →
      c.finishReason.isSome = true) :
    (sseFrames (handleStreaming evs initialStreamState)).countP
        (fun fr => fr.event == "message_start") = 1 ∧
    (sseFrames (handleStreaming evs initialStreamState)).head? =
      some (eventFrame AnthropicEvent.messageStart) ∧
    (sseFrames (handleStreaming evs initialStreamState)).countP
        (fun fr => fr.event == "message_stop") = 1 ∧
    (sseFrames (handleStreaming evs initialStreamState)).getLast? =
      some (eventFrame AnthropicEvent.messageStop) := by
  have hcomp₁ : ((fun fr : SSEFrame => fr.event == "message_start") ∘
      eventFrame) = isMessageStart := funext frameTag_start
  have hcomp₂ : ((fun fr : SSEFrame => fr.event == "message_stop") ∘
      eventFrame) = isMessageStop := funext frameTag_stop
  have hsplit := List.dropLast_concat_getLast hne
  have hc₀ : ((processedChunks evs).getLast hne).finishReason.isSome =
      true :=
    hlast _ (List.getLast?_eq_getLast _ hne)
  obtain ⟨fr, hfr⟩ := Option.isSome_iff_exists.mp hc₀
  refine ⟨?_, ?_, ?_, ?_⟩
  · rw [sseFrames_handleStreaming, List.countP_map, hcomp₁,
      translateAllS_start_count _ _ rfl hne]
  · rw [sseFrames_handleStreaming, List.head?_map,
      translateAllS_head _ _ rfl hne]
    rfl
  · rw [sseFrames_handleStreaming, List.countP_map, hcomp₂,
      translateAllS_stop_count, ← hsplit, List.countP_append]
    have hdrop : ((processedChunks evs).dropLast).countP
        (fun c => c.finishReason.isSome) = 0 := by
      rw [List.countP_eq_zero]
      intro a ha
      rw [hmid a ha]
      simp
    rw [hdrop]
    simp [hc₀]
  · rw [sseFrames_handleStreaming, List.getLast?_map, ← hsplit,
      translateAllS_getLast _ _ _ fr hfr]
    rfl

/-- **C3** (witness): a text chunk followed by a terminal
`finish_reason` chunk and the sentinel yields exactly one
`message_start` first and one `message_stop` last. -/
theorem c3_stream_start_stop_witness :
    (sseFrames (handleStreaming
        [RawEvent.chunk ⟨⟨none, some "hi", []⟩, none⟩,
         RawEvent.chunk ⟨⟨none, none, []⟩, some "stop"⟩, RawEvent.done]
        initialStreamState)).countP
      (fun fr => fr.event == "message_start") = 1 ∧
    (sseFrames (handleStreaming
        [RawEvent.chunk ⟨⟨none, some "hi", []⟩, none⟩,
         RawEvent.chunk ⟨⟨none, none, []⟩, some "stop"⟩, RawEvent.done]
        initialStreamState)).head? =
      some (eventFrame AnthropicEvent.messageStart) ∧
    (sseFrames (handleStreaming
        [RawEvent.chunk ⟨⟨none, some "hi", []⟩, none⟩,
         RawEvent.chunk ⟨⟨none, none, []⟩, some "stop"⟩, RawEvent.done]
        initialStreamState)).countP
      (fun fr => fr.event == "message_stop") = 1 ∧
    (sseFrames (handleStreaming
        [RawEvent.chunk ⟨⟨none, some "hi", []⟩, none⟩,
         RawEvent.chunk ⟨⟨none, none, []⟩, some "stop"⟩, RawEvent.done]
        initialStreamState)).getLast? =
      some (eventFrame AnthropicEvent.messageStop) :=
  c3_stream_start_stop
    [RawEvent.chunk ⟨⟨none, some "hi", []⟩, none⟩,
     RawEvent.chunk ⟨⟨none, none, []⟩, some "stop"⟩, RawEvent.done]
    (by decide) (by decide) (by decide)

end CopilotApi
